import Mathlib

/-!
Verification of the llm-dataset-generator pipeline (src/main.py,
src/generator/questions.py, src/generator/answers.py,
src/generator/utils.py).

The external model-serving client (ollama.chat) is modelled as an oracle
argument: `some reply` stands for a successful call returning text,
`none` for a call that raised an error.  Python strings are modelled as
Lean `String` / `List Char`; the Python whitespace and digit character
classes are modelled by their ASCII fragments (noted on each predicate).
-/

namespace LlmDatasetGenerator

/-- ASCII fragment of the Python whitespace class used by str.strip and
the regex whitespace class: space (32), tab (9), line feed (10),
vertical tab (11), form feed (12), carriage return (13).  Unicode-only
whitespace is not modelled. -/
def isPySpace (c : Char) : Bool :=
  c.toNat = 32 ∨ (9 ≤ c.toNat ∧ c.toNat ≤ 13)

/-- ASCII decimal digit, modelling Python str.isdigit and the regex digit
class on ASCII input. -/
def isAsciiDigit (c : Char) : Bool :=
  48 ≤ c.toNat ∧ c.toNat ≤ 57

/-- Characters removed by strip(' *') in parse_questions_from_response. -/
def isSpaceStar (c : Char) : Bool :=
  c = ' ' ∨ c = '*'

/-- Characters of the list-marker class (digits, dot, dash, asterisk) in
the fallback re.sub of parse_questions_from_response. -/
def isMarkerChar (c : Char) : Bool :=
  isAsciiDigit c ∨ c = '.' ∨ c = '-' ∨ c = '*'

/-- Python-style two-sided strip with an arbitrary character class. -/
def stripBy (p : Char → Bool) (l : List Char) : List Char :=
  ((l.dropWhile p).reverse.dropWhile p).reverse

/-- Python str.strip() on a character list. -/
def pyStripL (l : List Char) : List Char :=
  stripBy isPySpace l

/-- Python str.strip() on a string. -/
def pyStrip (s : String) : String :=
  String.mk (pyStripL s.data)

/-- Python strip(' *') on a character list. -/
def stripSpaceStar (l : List Char) : List Char :=
  stripBy isSpaceStar l

/-- Counts the words of Python str.split() without arguments, that is the
maximal non-whitespace runs.  The flag records whether the previous
character was inside a word. -/
def wordCountAux : Bool → List Char → Nat
  | _, [] => 0
  | inWord, c :: t =>
    if isPySpace c then wordCountAux false t
    else (if inWord then 0 else 1) + wordCountAux true t

/-- Number of words returned by Python str.split() without arguments. -/
def wordCount (l : List Char) : Nat :=
  wordCountAux false l

/-- Line-boundary characters of Python str.splitlines: line feed,
vertical tab, form feed, carriage return, the separators 28 to 30, NEL
(133), LS (8232) and PS (8233). -/
def isLineBound (c : Char) : Bool :=
  c.toNat = 10 ∨ (11 ≤ c.toNat ∧ c.toNat ≤ 13) ∨
  (28 ≤ c.toNat ∧ c.toNat ≤ 30) ∨ c.toNat = 133 ∨
  c.toNat = 8232 ∨ c.toNat = 8233

/-- Worker for Python str.splitlines; cur holds the current line in
reverse.  A carriage return immediately followed by a line feed counts
as a single boundary. -/
def splitlinesGo (cur : List Char) : List Char → List (List Char)
  | [] => if cur = [] then [] else [cur.reverse]
  | '\r' :: '\n' :: t => cur.reverse :: splitlinesGo [] t
  | c :: t =>
    if isLineBound c then cur.reverse :: splitlinesGo [] t
    else splitlinesGo (c :: cur) t

/-- Python str.splitlines() on a character list. -/
def pySplitlines (l : List Char) : List (List Char) :=
  splitlinesGo [] l

/-- One anchored attempt of the MULTILINE question pattern (line start,
whitespace run, digit run, dot, whitespace run, capture to end of line)
of parse_questions_from_response.  The regex is deterministic: each
starred class is matched greedily and no backtracking can succeed, so
the attempt reduces to this takeWhile/dropWhile chain.  Returns the
captured group together with the remaining text after the match. -/
def matchNumbered (cs : List Char) : Option (List Char × List Char) :=
  let afterWs := cs.dropWhile isPySpace
  if afterWs.takeWhile isAsciiDigit = [] then none
  else
    let afterDigits := afterWs.dropWhile isAsciiDigit
    if afterDigits.headD ' ' = '.' then
      let rest2 := afterDigits.tail.dropWhile isPySpace
      some (rest2.takeWhile (· != '\n'), rest2.dropWhile (· != '\n'))
    else none

/-- Fuel-indexed scan of re.findall for the question pattern: attempt a
match at the current line start, emit its capture and resume right after
the match, otherwise move past the next line feed.  The fuel only bounds
the recursion; the text length is always a sufficient fuel. -/
def findallAux : Nat → List Char → List (List Char)
  | 0, _ => []
  | fuel + 1, cs =>
    match matchNumbered cs with
    | some (cap, rest) => cap :: findallAux fuel (rest.drop 1)
    | none =>
      match cs.dropWhile (· != '\n') with
      | [] => []
      | _ :: t => findallAux fuel t

/-- re.findall of the numbered-item pattern over the whole response. -/
def findallNumbered (cs : List Char) : List (List Char) :=
  findallAux cs.length cs

/-- Primary strategy of parse_questions_from_response: each regex match
is stripped of whitespace, kept when still non-empty, and then stripped
of surrounding spaces and asterisks. -/
def primaryQuestions (cs : List Char) : List (List Char) :=
  (findallNumbered cs).filterMap (fun m =>
    let question := pyStripL m
    if question = [] then none else some (stripSpaceStar question))

/-- The re.sub removing a leading list marker (whitespace run, one or
more marker characters, whitespace run) in the fallback branch of
parse_questions_from_response; when the anchored pattern does not match,
the line is returned unchanged. -/
def subMarker (l : List Char) : List Char :=
  match l.dropWhile isPySpace with
  | [] => l
  | c :: _ =>
    if isMarkerChar c then
      ((l.dropWhile isPySpace).dropWhile isMarkerChar).dropWhile isPySpace
    else l

/-- One line of the fallback heuristic of parse_questions_from_response:
a stripped line longer than 2 characters starting with a digit or bullet
is kept as its marker-free remainder when that remainder still contains
a question mark; otherwise a line containing a question mark with more
than 3 words is kept whole. -/
def fallbackLine (rawLine : List Char) : Option (List Char) :=
  let line := pyStripL rawLine
  match line with
  | [] => none
  | c :: _ =>
    if 2 < line.length ∧ (isAsciiDigit c ∨ c = '-' ∨ c = '*') then
      let cleaned := subMarker line
      if cleaned ≠ [] ∧ cleaned.contains '?' then some cleaned else none
    else if line.contains '?' ∧ 3 < wordCount line then some line
    else none

/-- Fallback strategy of parse_questions_from_response: the accepted
lines in their order of appearance. -/
def fallbackQuestions (cs : List Char) : List (List Char) :=
  (pySplitlines cs).filterMap fallbackLine

/-- parse_questions_from_response (src/generator/questions.py) on the
character level: empty or whitespace-only input yields the empty list;
otherwise the primary regex strategy is used, and the fallback line
heuristic only when the primary strategy produced no questions. -/
def parseQuestionsCore (cs : List Char) : List (List Char) :=
  if cs = [] ∨ pyStripL cs = [] then []
  else
    let questions := primaryQuestions cs
    if questions = [] then
      let potential := fallbackQuestions cs
      if potential ≠ [] then potential else questions
    else questions

/-- parse_questions_from_response (src/generator/questions.py). -/
def parse_questions_from_response (s : String) : List String :=
  (parseQuestionsCore s.data).map String.mk

/-- generate_questions_ollama (src/generator/questions.py) with the
model call abstracted to an oracle: `chat = some raw` models a
successful ollama.chat call whose reply content is raw, `chat = none` a
call that raised.  The prompt built from the truncated content and the
requested count only influences the oracle reply and is not itself
observable in the returned value; when the parser finds no questions the
code returns the empty list, while a raised call returns None. -/
def generate_questions_ollama (content : String) (numQuestions : Nat)
    (chat : Option String) : Option (List String) :=
  if content = "" then none
  else
    match chat with
    | none => none
    | some raw =>
      let questions := parse_questions_from_response raw
      if questions = [] then some []
      else
        let _ := numQuestions
        some questions

/-- answer_question_ollama (src/generator/answers.py) with the model
call abstracted to an oracle: empty context or question yields None,
a successful reply is stripped of surrounding whitespace, a raised call
yields None. -/
def answer_question_ollama (question context : String)
    (chat : Option String) : Option String :=
  if context = "" then none
  else if question = "" then none
  else
    match chat with
    | none => none
    | some reply => some (pyStrip reply)

/-- The fixed fallback answer substituted for a failed per-question
call in answers_questions_ollama. -/
def errorAnswer : String :=
  "Error occurred while generating this answer."

/-- Worker for answers_questions_ollama: the enumerate loop of the
source, the counter starting at 1; the oracle gives the model reply of
the i-th answering call. -/
def answersGo (documentContent : String) (chat : Nat → Option String) :
    Nat → List String → List String
  | _, [] => []
  | i, question :: qs =>
    (match answer_question_ollama question documentContent (chat i) with
     | some answer => answer
     | none => errorAnswer) :: answersGo documentContent chat (i + 1) qs

/-- answers_questions_ollama (src/generator/answers.py): one sequential
answer_question_ollama call per question in input order, substituting
the fixed fallback string when a call returns None; the oracle gives the
model reply of each call by its position. -/
def answers_questions_ollama (documentContent : String)
    (generatedQuestions : List String)
    (chat : Nat → Option String) : List String :=
  answersGo documentContent chat 1 generatedQuestions

/-- One record of the default template: the Python dict with the input
and output keys. -/
structure QAPair where
  input : String
  output : String
deriving DecidableEq

/-- One record of the gemma template: the Python dict with the content
and role keys. -/
structure RoleMessage where
  content : String
  role : String
deriving DecidableEq

/-- One turn of the llama template: the Python dict whose keys are from
and value; the first field stands for the from key. -/
structure ConvMessage where
  fromRole : String
  value : String
deriving DecidableEq

/-- The llama template wrapper: the Python dict with the single
conversations key. -/
structure LlamaTemplate where
  conversations : List ConvMessage
deriving DecidableEq

/-- create_default_template (src/generator/utils.py): input/output pairs,
or the empty list when the two lengths differ. -/
def create_default_template (generatedQuestions answersQuestions : List String) :
    List QAPair :=
  if generatedQuestions.length ≠ answersQuestions.length then []
  else List.zipWith QAPair.mk generatedQuestions answersQuestions

/-- create_gemma_template (src/generator/utils.py): alternating user and
assistant messages, or the empty list when the two lengths differ. -/
def create_gemma_template (generatedQuestions answersQuestions : List String) :
    List RoleMessage :=
  if generatedQuestions.length ≠ answersQuestions.length then []
  else (List.zip generatedQuestions answersQuestions).flatMap
    (fun p => [⟨p.1, "user"⟩, ⟨p.2, "assistant"⟩])

/-- create_llama_template (src/generator/utils.py): a conversations
wrapper alternating human and gpt turns, or the wrapper around the empty
list when the two lengths differ. -/
def create_llama_template (generatedQuestions answersQuestions : List String) :
    LlamaTemplate :=
  if generatedQuestions.length ≠ answersQuestions.length then ⟨[]⟩
  else ⟨(List.zip generatedQuestions answersQuestions).flatMap
    (fun p => [⟨"human", p.1⟩, ⟨"gpt", p.2⟩])⟩

/-- The union type returned by create_template: a list of pairs, a list
of role messages, the llama wrapper, an error string, or the implicit
Python None reached when the lowered template name is in the supported
list but is none of the three known kinds. -/
inductive TemplateResult where
  | pairs : List QAPair → TemplateResult
  | rolePairs : List RoleMessage → TemplateResult
  | conv : LlamaTemplate → TemplateResult
  | errStr : String → TemplateResult
  | pyNone : TemplateResult
deriving DecidableEq

/-- ASCII fragment of Python str.lower() on one character. -/
def lowerChar (c : Char) : Char :=
  if 65 ≤ c.toNat ∧ c.toNat ≤ 90 then Char.ofNat (c.toNat + 32) else c

/-- ASCII fragment of Python str.lower(). -/
def pyLower (s : String) : String :=
  String.mk (s.data.map lowerChar)

/-- The ASCII apostrophe (39) appearing in the unsupported-template
error message. -/
def sq : String :=
  String.singleton (Char.ofNat 39)

/-- create_template (src/generator/utils.py): dispatch on the lowered
template name; an unsupported name yields the error string built from
the original name and the joined supported list. -/
def create_template (template : String)
    (generatedQuestions answersQuestions : List String)
    (supportedTemplates : List String) : TemplateResult :=
  if pyLower template ∉ supportedTemplates then
    .errStr ("Error: Unsupported template " ++ sq ++ template ++ sq ++
      ". Choose from: " ++ String.intercalate ", " supportedTemplates)
  else if pyLower template = "default" then
    .pairs (create_default_template generatedQuestions answersQuestions)
  else if pyLower template = "gemma" then
    .rolePairs (create_gemma_template generatedQuestions answersQuestions)
  else if pyLower template = "llama" then
    .conv (create_llama_template generatedQuestions answersQuestions)
  else .pyNone

/-- Python truthiness of a create_template result: an empty list is
falsy, the llama dict always holds the conversations key and is truthy,
an error string is truthy when non-empty, None is falsy. -/
def templateTruthy : TemplateResult → Bool
  | .pairs l => l ≠ []
  | .rolePairs l => l ≠ []
  | .conv _ => true
  | .errStr s => s ≠ ""
  | .pyNone => false

/-- Python isinstance(data, str) on a create_template result. -/
def templateIsStr : TemplateResult → Bool
  | .errStr _ => true
  | _ => false

/-- Per-run outcomes of the external collaborators of main
(src/main.py): the document reader result, the truthiness of the
check_ollama result (True on success, None on any failure), the model
oracle for question generation and the per-question oracle for
answering, together with the argument and configuration values that
reach the pipeline. -/
structure RunEnv where
  document : Option String
  ollamaOk : Bool
  genChat : Option String
  ansChat : Nat → Option String
  template : String
  supported : List String
  numQuestions : Nat

/-- main (src/main.py): the Python return value of main(), some code for
return 1 or return 0, and none for the bare return None taken when
check_ollama fails.  The answers list returned by
answers_questions_ollama is never None, so only its emptiness check of
main is reachable. -/
def main (env : RunEnv) : Option Nat :=
  match env.document with
  | none => some 1
  | some content =>
    if pyStripL content.data = [] then some 1
    else if ¬ env.ollamaOk then none
    else
      match generate_questions_ollama content env.numQuestions env.genChat with
      | none => some 1
      | some generatedQuestions =>
        if generatedQuestions = [] then some 1
        else
          let answersQuestions :=
            answers_questions_ollama content generatedQuestions env.ansChat
          if answersQuestions = [] then some 1
          else
            let data := create_template env.template generatedQuestions
              answersQuestions env.supported
            if templateTruthy data ∧ ¬ templateIsStr data then some 0
            else some 1

/-- The sys.exit call at the bottom of main.py: sys.exit(None) means a
process exit status of 0, sys.exit(n) a status of n. -/
def sysExit : Option Nat → Nat
  | none => 0
  | some n => n

/-- The abstention sentinel that the answering prompt of
answer_question_ollama instructs the model to emit verbatim when the
document does not contain the answer. -/
def notFoundMsg : String :=
  "The document does not provide an answer to this question."

/-! A model of well-formed numbered-list text: each line consists of
optional leading whitespace, one or more digits, a period, optional
whitespace, then content with at least one non-whitespace character. -/

/-- One well-formed numbered line, split into its four syntactic parts. -/
structure NLine where
  lead : List Char
  digits : List Char
  sep : List Char
  content : List Char

/-- Well-formedness of a numbered line: lead and sep are whitespace
without line feeds, the digit run is non-empty, the content holds no
line feed and at least one non-whitespace character. -/
def NLine.WF (L : NLine) : Prop :=
  (∀ c ∈ L.lead, isPySpace c = true ∧ c ≠ '\n') ∧
  L.digits ≠ [] ∧
  (∀ c ∈ L.digits, isAsciiDigit c = true) ∧
  (∀ c ∈ L.sep, isPySpace c = true ∧ c ≠ '\n') ∧
  '\n' ∉ L.content ∧
  pyStripL L.content ≠ []

instance (L : NLine) : Decidable L.WF := by
  unfold NLine.WF
  infer_instance

/-- The character sequence of one numbered line. -/
def NLine.render (L : NLine) : List Char :=
  L.lead ++ L.digits ++ '.' :: (L.sep ++ L.content)

/-- The character sequence of a list of numbered lines joined by line
feeds. -/
def renderText : List NLine → List Char
  | [] => []
  | [L] => L.render
  | L :: ls => L.render ++ '\n' :: renderText ls


/-! Helper lemmas about dropWhile, takeWhile and the strip functions. -/

theorem dropWhile_append_all {α : Type} {p : α → Bool} {w l : List α}
    (h : ∀ c ∈ w, p c = true) :
    (w ++ l).dropWhile p = l.dropWhile p := by
  induction w with
  | nil => rfl
  | cons a t ih =>
    have ha : p a = true := h a (List.mem_cons_self a t)
    simp only [List.cons_append, List.dropWhile_cons, ha, if_pos]
    exact ih (fun c hc => h c (List.mem_cons_of_mem a hc))

theorem dropWhile_cons_neg {α : Type} {p : α → Bool} {a : α} {l : List α}
    (h : p a = false) :
    (a :: l).dropWhile p = a :: l := by
  simp [List.dropWhile_cons, h]

theorem takeWhile_append_stop {α : Type} {p : α → Bool} {w l : List α} {b : α}
    (hw : ∀ c ∈ w, p c = true) (hb : p b = false) :
    (w ++ b :: l).takeWhile p = w := by
  induction w with
  | nil => simp [List.takeWhile_cons, hb]
  | cons a t ih =>
    have ha : p a = true := hw a (List.mem_cons_self a t)
    simp only [List.cons_append, List.takeWhile_cons, ha, if_pos]
    rw [ih (fun c hc => hw c (List.mem_cons_of_mem a hc))]

theorem dropWhile_append_stop {α : Type} {p : α → Bool} {w l : List α} {b : α}
    (hw : ∀ c ∈ w, p c = true) (hb : p b = false) :
    (w ++ b :: l).dropWhile p = b :: l := by
  rw [dropWhile_append_all hw, dropWhile_cons_neg hb]

theorem takeWhile_all {α : Type} {p : α → Bool} {l : List α}
    (h : ∀ c ∈ l, p c = true) :
    l.takeWhile p = l := by
  induction l with
  | nil => rfl
  | cons a t ih =>
    have ha : p a = true := h a (List.mem_cons_self a t)
    simp only [List.takeWhile_cons, ha, if_pos]
    rw [ih (fun c hc => h c (List.mem_cons_of_mem a hc))]

theorem dropWhile_all {α : Type} {p : α → Bool} {l : List α}
    (h : ∀ c ∈ l, p c = true) :
    l.dropWhile p = [] :=
  List.dropWhile_eq_nil_iff.mpr h

theorem dropWhile_head_neg {α : Type} {p : α → Bool} {l : List α} {c : α}
    {cs : List α} (h : l.dropWhile p = c :: cs) :
    p c = false := by
  induction l with
  | nil => simp at h
  | cons a t ih =>
    rw [List.dropWhile_cons] at h
    by_cases ha : p a = true
    · exact ih (by simpa [ha] using h)
    · have ha' : p a = false := by simpa using ha
      rw [if_neg (by simp [ha'])] at h
      cases h
      exact ha'

theorem length_dropWhile_le {α : Type} (p : α → Bool) (l : List α) :
    (l.dropWhile p).length ≤ l.length := by
  induction l with
  | nil => simp
  | cons a t ih =>
    rw [List.dropWhile_cons]
    by_cases ha : p a = true
    · simp only [ha, if_pos]
      exact Nat.le_trans ih (Nat.le_succ _)
    · simp [ha]

theorem dropWhile_idempotent {α : Type} (p : α → Bool) (l : List α) :
    (l.dropWhile p).dropWhile p = l.dropWhile p := by
  cases h : l.dropWhile p with
  | nil => rfl
  | cons c cs => rw [dropWhile_cons_neg (dropWhile_head_neg h)]

theorem mem_dropWhile_of_neg {α : Type} {p : α → Bool} {l : List α} {c : α}
    (hc : c ∈ l) (hpc : p c = false) :
    c ∈ l.dropWhile p := by
  induction l with
  | nil => simp at hc
  | cons a t ih =>
    rw [List.dropWhile_cons]
    rcases List.mem_cons.mp hc with rfl | hct
    · simp [hpc]
    · by_cases ha : p a = true
      · simp only [ha, if_pos]
        exact ih hct
      · simp only [ha, if_neg, Bool.false_eq_true, not_false_iff]
        exact List.mem_cons_of_mem a hct

theorem dropWhile_append_of_ne_nil {α : Type} {p : α → Bool} {l t : List α}
    (h : l.dropWhile p ≠ []) :
    (l ++ t).dropWhile p = l.dropWhile p ++ t := by
  induction l with
  | nil => simp at h
  | cons a u ih =>
    by_cases ha : p a = true
    · rw [List.cons_append, List.dropWhile_cons, List.dropWhile_cons,
        if_pos ha, if_pos ha]
      rw [List.dropWhile_cons, if_pos ha] at h
      exact ih h
    · rw [List.cons_append, List.dropWhile_cons, List.dropWhile_cons]
      simp [ha]

theorem stripBy_ne_nil_of_mem {p : Char → Bool} {l : List Char} {c : Char}
    (hc : c ∈ l) (hpc : p c = false) :
    stripBy p l ≠ [] := by
  unfold stripBy
  intro h
  have h2 : (l.dropWhile p).reverse.dropWhile p = [] := by
    simpa using congrArg List.reverse h
  have h3 : c ∈ (l.dropWhile p).reverse :=
    List.mem_reverse.mpr (mem_dropWhile_of_neg hc hpc)
  have h4 : p c = true := List.dropWhile_eq_nil_iff.mp h2 c h3
  rw [h4] at hpc
  cases hpc

theorem stripBy_eq_nil_of_all {p : Char → Bool} {l : List Char}
    (h : ∀ c ∈ l, p c = true) :
    stripBy p l = [] := by
  unfold stripBy
  rw [dropWhile_all h]
  rfl

theorem all_of_stripBy_eq_nil {p : Char → Bool} {l : List Char}
    (h : stripBy p l = []) :
    ∀ c ∈ l, p c = true := by
  intro c hc
  by_contra hcp
  exact stripBy_ne_nil_of_mem hc (by simpa using hcp) h

theorem stripBy_dropWhile (p : Char → Bool) (l : List Char) :
    stripBy p (l.dropWhile p) = stripBy p l := by
  unfold stripBy
  rw [dropWhile_idempotent]

theorem dropWhile_ne_nil_of_stripBy_ne_nil {p : Char → Bool} {l : List Char}
    (h : stripBy p l ≠ []) :
    l.dropWhile p ≠ [] := by
  intro h2
  apply h
  unfold stripBy
  rw [h2]
  rfl

theorem stripBy_sandwich {p : Char → Bool} {w1 w2 core : List Char}
    (h1 : ∀ c ∈ w1, p c = true) (h2 : ∀ c ∈ w2, p c = true)
    (hne : core ≠ [])
    (hhead : p (core.headD 'x') = false)
    (hlast : p (core.reverse.headD 'x') = false) :
    stripBy p (w1 ++ core ++ w2) = core := by
  obtain ⟨c0, cr, rfl⟩ : ∃ c0 cr, core = c0 :: cr := by
    cases core with
    | nil => exact absurd rfl hne
    | cons a t => exact ⟨a, t, rfl⟩
  obtain ⟨d0, dr, hrev⟩ : ∃ d0 dr, (c0 :: cr).reverse = d0 :: dr := by
    cases hx : (c0 :: cr).reverse with
    | nil => exact absurd (List.reverse_eq_nil_iff.mp hx) (by simp)
    | cons a t => exact ⟨a, t, rfl⟩
  simp only [List.headD_cons] at hhead
  rw [hrev] at hlast
  simp only [List.headD_cons] at hlast
  unfold stripBy
  rw [List.append_assoc, dropWhile_append_all h1, List.cons_append,
    dropWhile_cons_neg hhead, ← List.cons_append, List.reverse_append,
    dropWhile_append_all (fun c hc => h2 c (List.mem_reverse.mp hc)), hrev,
    dropWhile_cons_neg hlast, ← hrev, List.reverse_reverse]

/-! Character class facts. -/

theorem not_space_of_digit {c : Char} (h : isAsciiDigit c = true) :
    isPySpace c = false := by
  simp only [isAsciiDigit, decide_eq_true_eq] at h
  simp only [isPySpace, decide_eq_false_iff_not]
  omega

/-! Facts about the regex matcher and the findall scan. -/

theorem matchNumbered_rest_lt {cs cap rest : List Char}
    (h : matchNumbered cs = some (cap, rest)) :
    rest.length < cs.length := by
  simp only [matchNumbered] at h
  split at h
  · exact Option.noConfusion h
  next h1 =>
    split at h
    next hb =>
      rw [Option.some.injEq, Prod.mk.injEq] at h
      obtain ⟨hcap, hrest⟩ := h
      obtain ⟨a, t, ha⟩ : ∃ a t, cs.dropWhile isPySpace = a :: t := by
        cases hx : cs.dropWhile isPySpace with
        | nil =>
          rw [hx] at h1
          exact absurd rfl h1
        | cons a t => exact ⟨a, t, rfl⟩
      have hat : isAsciiDigit a = true := by
        by_contra hna
        rw [ha, List.takeWhile_cons, if_neg (by simpa using hna)] at h1
        exact h1 rfl
      have e0 : (a :: t).length ≤ cs.length := ha ▸ length_dropWhile_le _ _
      have e2 : ((cs.dropWhile isPySpace).dropWhile isAsciiDigit).length ≤
          t.length := by
        rw [ha, List.dropWhile_cons, if_pos hat]
        exact length_dropWhile_le _ _
      have e4 : rest.length ≤
          ((cs.dropWhile isPySpace).dropWhile isAsciiDigit).tail.length := by
        rw [← hrest]
        exact Nat.le_trans (length_dropWhile_le _ _) (length_dropWhile_le _ _)
      have e5 := List.length_tail ((cs.dropWhile isPySpace).dropWhile isAsciiDigit)
      simp only [List.length_cons] at e0
      omega
    next hb => exact Option.noConfusion h

theorem findallAux_nil (fuel : Nat) : findallAux fuel [] = [] := by
  cases fuel with
  | zero => rfl
  | succ n => rfl

theorem findallAux_congr :
    ∀ (f1 : Nat) {f2 : Nat} (cs : List Char),
      cs.length ≤ f1 → cs.length ≤ f2 →
      findallAux f1 cs = findallAux f2 cs := by
  intro f1
  induction f1 with
  | zero =>
    intro f2 cs h1 _
    have : cs = [] := List.eq_nil_of_length_eq_zero (Nat.le_zero.mp h1)
    subst this
    rw [findallAux_nil, findallAux_nil]
  | succ n ih =>
    intro f2 cs h1 h2
    cases cs with
    | nil => rw [findallAux_nil, findallAux_nil]
    | cons a t =>
      cases f2 with
      | zero => simp at h2
      | succ m =>
        simp only [findallAux]
        cases hm : matchNumbered (a :: t) with
        | some pr =>
          obtain ⟨cap, rest⟩ := pr
          have hlt := matchNumbered_rest_lt hm
          have hd : (rest.drop 1).length ≤ rest.length := by
            rw [List.length_drop]
            omega
          simp only [List.length_cons] at h1 h2 hlt
          show cap :: findallAux n (rest.drop 1) = cap :: findallAux m (rest.drop 1)
          rw [@ih m (rest.drop 1) (by omega) (by omega)]
        | none =>
          cases hdw : (a :: t).dropWhile (· != '\n') with
          | nil => rfl
          | cons b u =>
            have hu : (b :: u).length ≤ (a :: t).length :=
              hdw ▸ length_dropWhile_le _ _
            simp only [List.length_cons] at h1 h2 hu
            show findallAux n u = findallAux m u
            rw [@ih m u (by omega) (by omega)]

theorem findallNumbered_cons_of_match {cs cap rest : List Char}
    (h : matchNumbered cs = some (cap, rest)) :
    findallNumbered cs = cap :: findallNumbered (rest.drop 1) := by
  have hlt := matchNumbered_rest_lt h
  unfold findallNumbered
  cases hl : cs.length with
  | zero => omega
  | succ n =>
    simp only [findallAux, h]
    have hd : (rest.drop 1).length ≤ n := by
      rw [List.length_drop]
      omega
    rw [findallAux_congr n (rest.drop 1) hd (Nat.le_refl _)]

theorem findallNumbered_skip_of_none {cs u : List Char} {b : Char}
    (h : matchNumbered cs = none)
    (hd : cs.dropWhile (· != '\n') = b :: u) :
    findallNumbered cs = findallNumbered u := by
  unfold findallNumbered
  cases hl : cs.length with
  | zero =>
    have : cs = [] := List.eq_nil_of_length_eq_zero hl
    subst this
    simp at hd
  | succ n =>
    simp only [findallAux, h, hd]
    have hu : (b :: u).length ≤ cs.length := hd ▸ length_dropWhile_le _ _
    rw [hl] at hu
    simp only [List.length_cons] at hu
    rw [findallAux_congr n u (by omega) (Nat.le_refl _)]

theorem findallNumbered_nil_of_none {cs : List Char}
    (h : matchNumbered cs = none)
    (hd : cs.dropWhile (· != '\n') = []) :
    findallNumbered cs = [] := by
  unfold findallNumbered
  cases hl : cs.length with
  | zero =>
    have : cs = [] := List.eq_nil_of_length_eq_zero hl
    subst this
    rw [findallAux_nil]
  | succ n => simp only [findallAux, h, hd]

theorem matchNumbered_render (L : NLine) (hWF : L.WF) (T : List Char)
    (hT : T = [] ∨ ∃ R, T = '\n' :: R) :
    matchNumbered (L.render ++ T) =
      some (L.content.dropWhile isPySpace, T) := by
  obtain ⟨hlead, hdne, hdig, hsep, hnl, hstrip⟩ := hWF
  obtain ⟨d0, dt, hd⟩ : ∃ d0 dt, L.digits = d0 :: dt := by
    cases hx : L.digits with
    | nil => exact absurd hx hdne
    | cons a t => exact ⟨a, t, rfl⟩
  have hd0 : isAsciiDigit d0 = true := hdig d0 (by rw [hd]; exact List.mem_cons_self _ _)
  have hd0ws : isPySpace d0 = false := not_space_of_digit hd0
  have hrender : L.render ++ T =
      L.lead ++ (L.digits ++ '.' :: (L.sep ++ (L.content ++ T))) := by
    unfold NLine.render
    simp [List.append_assoc]
  have hdotdig : isAsciiDigit '.' = false := by decide
  have hcontent : L.content.dropWhile isPySpace ≠ [] :=
    dropWhile_ne_nil_of_stripBy_ne_nil hstrip
  obtain ⟨c0, cr, hc⟩ : ∃ c0 cr, L.content.dropWhile isPySpace = c0 :: cr := by
    cases hx : L.content.dropWhile isPySpace with
    | nil => exact absurd hx hcontent
    | cons a t => exact ⟨a, t, rfl⟩
  have hc0ws : isPySpace c0 = false := dropWhile_head_neg hc
  have step1 : (L.render ++ T).dropWhile isPySpace =
      L.digits ++ '.' :: (L.sep ++ (L.content ++ T)) := by
    rw [hrender, dropWhile_append_all (fun c hc => (hlead c hc).1), hd,
      List.cons_append, dropWhile_cons_neg hd0ws, ← List.cons_append, ← hd]
  have step2 : ((L.render ++ T).dropWhile isPySpace).takeWhile isAsciiDigit =
      L.digits := by
    rw [step1]
    exact takeWhile_append_stop hdig hdotdig
  have step3 : ((L.render ++ T).dropWhile isPySpace).dropWhile isAsciiDigit =
      '.' :: (L.sep ++ (L.content ++ T)) := by
    rw [step1]
    exact dropWhile_append_stop hdig hdotdig
  have step4 : (L.sep ++ (L.content ++ T)).dropWhile isPySpace =
      (c0 :: cr) ++ T := by
    rw [dropWhile_append_all (fun c hc => (hsep c hc).1),
      dropWhile_append_of_ne_nil hcontent, hc]
  have hnlq : ∀ c ∈ c0 :: cr, (c != '\n') = true := by
    intro c hcc
    have : c ∈ L.content := by
      have hsub : c ∈ L.content.dropWhile isPySpace := hc ▸ hcc
      exact List.dropWhile_sublist isPySpace |>.mem hsub
    simp only [bne_iff_ne, ne_eq]
    intro heq
    rw [heq] at this
    exact hnl this
  have step5 : ((c0 :: cr) ++ T).takeWhile (· != '\n') = c0 :: cr := by
    rcases hT with rfl | ⟨R, rfl⟩
    · rw [List.append_nil]
      exact takeWhile_all hnlq
    · exact takeWhile_append_stop hnlq (by simp)
  have step6 : ((c0 :: cr) ++ T).dropWhile (· != '\n') = T := by
    rcases hT with rfl | ⟨R, rfl⟩
    · rw [List.append_nil]
      exact dropWhile_all hnlq
    · exact dropWhile_append_stop hnlq (by simp)
  simp only [matchNumbered]
  rw [step2]
  rw [if_neg (by rw [hd]; simp)]
  rw [step3]
  simp only [List.headD_cons, List.tail_cons]
  simp only [if_true]
  rw [step4, step5, step6, hc]

theorem findall_renderText :
    ∀ (ls : List NLine), (∀ L ∈ ls, L.WF) →
      findallNumbered (renderText ls) =
        ls.map (fun L => L.content.dropWhile isPySpace) := by
  intro ls
  induction ls with
  | nil =>
    intro _
    rfl
  | cons L ls ih =>
    intro h
    have hL : L.WF := h L (List.mem_cons_self _ _)
    cases ls with
    | nil =>
      have hm := matchNumbered_render L hL [] (Or.inl rfl)
      rw [List.append_nil] at hm
      rw [show renderText [L] = L.render from rfl,
        findallNumbered_cons_of_match hm]
      rfl
    | cons L2 ls2 =>
      have hm := matchNumbered_render L hL ('\n' :: renderText (L2 :: ls2))
        (Or.inr ⟨_, rfl⟩)
      rw [show renderText (L :: L2 :: ls2) =
        L.render ++ '\n' :: renderText (L2 :: ls2) from rfl,
        findallNumbered_cons_of_match hm, List.map_cons]
      rw [show ('\n' :: renderText (L2 :: ls2)).drop 1 =
        renderText (L2 :: ls2) from rfl]
      rw [ih (fun L2 hL2 => h L2 (List.mem_cons_of_mem _ hL2))]

theorem primary_renderText :
    ∀ (ls : List NLine), (∀ L ∈ ls, L.WF) →
      primaryQuestions (renderText ls) =
        ls.map (fun L => stripSpaceStar (pyStripL L.content)) := by
  intro ls h
  unfold primaryQuestions
  rw [findall_renderText ls h]
  induction ls with
  | nil => rfl
  | cons L ls ih =>
    have hL : L.WF := h L (List.mem_cons_self _ _)
    have hq : pyStripL (L.content.dropWhile isPySpace) = pyStripL L.content := by
      unfold pyStripL
      exact stripBy_dropWhile _ _
    rw [List.map_cons, List.map_cons, List.filterMap_cons]
    simp only [hq, if_neg hL.2.2.2.2.2]
    rw [ih (fun L2 hL2 => h L2 (List.mem_cons_of_mem _ hL2))]

theorem parse_renderText :
    ∀ (ls : List NLine), (∀ L ∈ ls, L.WF) →
      parseQuestionsCore (renderText ls) =
        ls.map (fun L => stripSpaceStar (pyStripL L.content)) := by
  intro ls h
  cases ls with
  | nil => rfl
  | cons L ls2 =>
    have hL : L.WF := h L (List.mem_cons_self _ _)
    obtain ⟨d0, dt, hd⟩ : ∃ d0 dt, L.digits = d0 :: dt := by
      cases hx : L.digits with
      | nil => exact absurd hx hL.2.1
      | cons a t => exact ⟨a, t, rfl⟩
    have hd0 : isAsciiDigit d0 = true :=
      hL.2.2.1 d0 (by rw [hd]; exact List.mem_cons_self _ _)
    have hd0render : d0 ∈ L.render := by
      unfold NLine.render
      rw [hd]
      simp
    have hd0mem : d0 ∈ renderText (L :: ls2) := by
      cases ls2 with
      | nil => exact hd0render
      | cons L2 ls3 =>
        rw [show renderText (L :: L2 :: ls3) =
          L.render ++ '\n' :: renderText (L2 :: ls3) from rfl]
        exact List.mem_append_left _ hd0render
    have hstrip : pyStripL (renderText (L :: ls2)) ≠ [] :=
      stripBy_ne_nil_of_mem hd0mem (not_space_of_digit hd0)
    have hnn : renderText (L :: ls2) ≠ [] := List.ne_nil_of_mem hd0mem
    unfold parseQuestionsCore
    rw [if_neg (by simp [hnn, hstrip])]
    simp only [primary_renderText (L :: ls2) h]
    rw [if_neg (by simp)]

/-! Facts about the whitespace-only and branch-selection behavior of the
parser. -/

theorem findall_all_space_aux :
    ∀ (n : Nat) (cs : List Char), cs.length ≤ n →
      (∀ c ∈ cs, isPySpace c = true) → findallNumbered cs = [] := by
  intro n
  induction n with
  | zero =>
    intro cs h1 _
    have : cs = [] := List.eq_nil_of_length_eq_zero (Nat.le_zero.mp h1)
    subst this
    rfl
  | succ n ih =>
    intro cs h1 hws
    have hm : matchNumbered cs = none := by
      simp only [matchNumbered]
      rw [dropWhile_all hws]
      simp
    cases hdw : cs.dropWhile (· != '\n') with
    | nil => exact findallNumbered_nil_of_none hm hdw
    | cons b u =>
      rw [findallNumbered_skip_of_none hm hdw]
      apply ih u
      · have hle := length_dropWhile_le (· != '\n') cs
        rw [hdw] at hle
        simp only [List.length_cons] at hle
        omega
      · intro c hc
        apply hws
        have hmem : c ∈ cs.dropWhile (· != '\n') := by
          rw [hdw]
          exact List.mem_cons_of_mem _ hc
        exact (List.dropWhile_sublist _).mem hmem

theorem findall_all_space {cs : List Char}
    (h : ∀ c ∈ cs, isPySpace c = true) : findallNumbered cs = [] :=
  findall_all_space_aux cs.length cs (Nat.le_refl _) h

theorem primary_all_space {cs : List Char}
    (h : ∀ c ∈ cs, isPySpace c = true) : primaryQuestions cs = [] := by
  unfold primaryQuestions
  rw [findall_all_space h]
  rfl

theorem mem_splitlinesGo_aux :
    ∀ (n : Nat) (cur cs : List Char), cs.length ≤ n →
      ∀ l ∈ splitlinesGo cur cs, ∀ c ∈ l, c ∈ cur ∨ c ∈ cs := by
  intro n
  induction n with
  | zero =>
    intro cur cs hlen l hl c hc
    have : cs = [] := List.eq_nil_of_length_eq_zero (Nat.le_zero.mp hlen)
    subst this
    rw [show splitlinesGo cur [] =
      (if cur = [] then [] else [cur.reverse]) from rfl] at hl
    split at hl
    · simp at hl
    · simp only [List.mem_singleton] at hl
      subst hl
      exact Or.inl (List.mem_reverse.mp hc)
  | succ n ih =>
    intro cur cs hlen l hl c hc
    rw [splitlinesGo.eq_def] at hl
    split at hl
    · split at hl
      · simp at hl
      · simp only [List.mem_singleton] at hl
        subst hl
        exact Or.inl (List.mem_reverse.mp hc)
    · next t =>
      rcases List.mem_cons.mp hl with rfl | hl2
      · exact Or.inl (List.mem_reverse.mp hc)
      · simp only [List.length_cons] at hlen
        rcases ih [] t (by omega) l hl2 c hc with hfalse | ht
        · simp at hfalse
        · exact Or.inr (List.mem_cons_of_mem _ (List.mem_cons_of_mem _ ht))
    · next c0 t hno =>
      split at hl
      · rcases List.mem_cons.mp hl with rfl | hl2
        · exact Or.inl (List.mem_reverse.mp hc)
        · simp only [List.length_cons] at hlen
          rcases ih [] t (by omega) l hl2 c hc with hfalse | ht
          · simp at hfalse
          · exact Or.inr (List.mem_cons_of_mem _ ht)
      · simp only [List.length_cons] at hlen
        rcases ih (c0 :: cur) t (by omega) l hl c hc with hcur | ht
        · rcases List.mem_cons.mp hcur with rfl | hcc
          · exact Or.inr (List.mem_cons_self _ _)
          · exact Or.inl hcc
        · exact Or.inr (List.mem_cons_of_mem _ ht)

theorem mem_pySplitlines {cs l : List Char} {c : Char}
    (hl : l ∈ pySplitlines cs) (hc : c ∈ l) : c ∈ cs := by
  rcases mem_splitlinesGo_aux cs.length [] cs (Nat.le_refl _) l hl c hc with h | h
  · simp at h
  · exact h

theorem fallback_all_space {cs : List Char}
    (h : ∀ c ∈ cs, isPySpace c = true) : fallbackQuestions cs = [] := by
  unfold fallbackQuestions
  rw [List.filterMap_eq_nil_iff]
  intro line hline
  have hstrip : pyStripL line = [] :=
    stripBy_eq_nil_of_all (fun c hc => h c (mem_pySplitlines hline hc))
  simp only [fallbackLine, hstrip]

theorem parse_eq_primary {cs : List Char} (h : primaryQuestions cs ≠ []) :
    parseQuestionsCore cs = primaryQuestions cs := by
  unfold parseQuestionsCore
  by_cases hg : cs = [] ∨ pyStripL cs = []
  · exfalso
    apply h
    rcases hg with rfl | hst
    · rfl
    · exact primary_all_space (all_of_stripBy_eq_nil hst)
  · rw [if_neg hg]
    simp only [if_neg h]

theorem parse_eq_fallback {cs : List Char} (h : primaryQuestions cs = []) :
    parseQuestionsCore cs = fallbackQuestions cs := by
  unfold parseQuestionsCore
  by_cases hg : cs = [] ∨ pyStripL cs = []
  · rw [if_pos hg]
    rcases hg with rfl | hst
    · rfl
    · rw [fallback_all_space (all_of_stripBy_eq_nil hst)]
  · rw [if_neg hg]
    show (if primaryQuestions cs = [] then
        (if fallbackQuestions cs ≠ [] then fallbackQuestions cs
          else primaryQuestions cs)
      else primaryQuestions cs) = fallbackQuestions cs
    rw [if_pos h, h]
    by_cases hf : fallbackQuestions cs = []
    · rw [if_neg (not_not_intro hf), hf]
    · rw [if_pos hf]

/-! Facts about the ASCII lowering used by create_template. -/

theorem char_toNat_ofNat {n : Nat} (h : n.isValidChar) :
    (Char.ofNat n).toNat = n := by
  unfold Char.ofNat
  rw [dif_pos h]
  rfl

theorem lowerChar_idem (c : Char) : lowerChar (lowerChar c) = lowerChar c := by
  unfold lowerChar
  by_cases h : 65 ≤ c.toNat ∧ c.toNat ≤ 90
  · rw [if_pos h]
    have hv : (c.toNat + 32).isValidChar := Or.inl (by omega)
    have ht : (Char.ofNat (c.toNat + 32)).toNat = c.toNat + 32 :=
      char_toNat_ofNat hv
    rw [if_neg (by rw [ht]; omega)]
  · rw [if_neg h, if_neg h]

theorem map_lowerChar_idem (l : List Char) :
    (l.map lowerChar).map lowerChar = l.map lowerChar := by
  induction l with
  | nil => rfl
  | cons a t ih => simp [lowerChar_idem, ih]

theorem pyLower_idem (s : String) : pyLower (pyLower s) = pyLower s := by
  unfold pyLower
  rw [show (String.mk (s.data.map lowerChar)).data = s.data.map lowerChar
    from rfl]
  rw [map_lowerChar_idem]

/-! Claim theorems. -/

/-- C1: the claim states that every stage failure, the model-availability
check included, makes the orchestrator exit with code 1.  The code
disagrees: when check_ollama fails, main returns None (src/main.py line
85) and sys.exit(None) terminates the process with exit status 0.  This
theorem evaluates the orchestrator on such a run: the document loads
with non-empty content, the availability check fails, and the resulting
process exit status is 0, not 1. -/
theorem c1_check_failure_exits_zero :
    main (RunEnv.mk (some "Some document text.") false none (fun _ => none)
      "default" ["default", "gemma", "llama"] 5) = none ∧
    sysExit (main (RunEnv.mk (some "Some document text.") false none
      (fun _ => none) "default" ["default", "gemma", "llama"] 5)) = 0 :=
  ⟨rfl, rfl⟩

theorem answersGo_getElem (ctx : String) (chat : Nat → Option String) :
    ∀ (qs : List String) (start i : Nat),
      (answersGo ctx chat start qs)[i]? =
        qs[i]?.map (fun q =>
          match answer_question_ollama q ctx (chat (start + i)) with
          | some a => a
          | none => errorAnswer) := by
  intro qs
  induction qs with
  | nil =>
    intro start i
    rfl
  | cons q qs ih =>
    intro start i
    have hcons : answersGo ctx chat start (q :: qs) =
        (match answer_question_ollama q ctx (chat start) with
         | some a => a
         | none => errorAnswer) :: answersGo ctx chat (start + 1) qs := rfl
    rw [hcons]
    cases i with
    | zero =>
      rw [List.getElem?_cons_zero, List.getElem?_cons_zero, Nat.add_zero]
      rfl
    | succ j =>
      rw [List.getElem?_cons_succ, List.getElem?_cons_succ, ih (start + 1) j]
      have harith : start + 1 + j = start + (j + 1) := by omega
      rw [harith]

theorem answersGo_length (ctx : String) (chat : Nat → Option String) :
    ∀ (qs : List String) (start : Nat),
      (answersGo ctx chat start qs).length = qs.length := by
  intro qs
  induction qs with
  | nil =>
    intro start
    rfl
  | cons q qs ih =>
    intro start
    show (answersGo ctx chat (start + 1) qs).length + 1 = qs.length + 1
    rw [ih (start + 1)]

/-- C2: the batch answerer returns a list of exactly the same length as
the question list and, at every index, either the successful answer to
the question at that index or exactly the fixed error string when that
single call (the i-th call, whose reply the oracle gives at position
i plus 1 following the enumerate of the source) failed; no individual
failure aborts the batch. -/
theorem c2_answers_batch_aligned (ctx : String) (qs : List String)
    (chat : Nat → Option String) :
    (answers_questions_ollama ctx qs chat).length = qs.length ∧
    ∀ i : Nat, (answers_questions_ollama ctx qs chat)[i]? =
      qs[i]?.map (fun q =>
        match answer_question_ollama q ctx (chat (i + 1)) with
        | some a => a
        | none => errorAnswer) := by
  constructor
  · exact answersGo_length ctx chat qs 1
  · intro i
    unfold answers_questions_ollama
    rw [answersGo_getElem ctx chat qs 1 i]
    have harith : 1 + i = i + 1 := by omega
    rw [harith]

/-- C3: on well-formed numbered-list text, one item per line in the form
whitespace, digits, period, whitespace, content, the parser returns
exactly the items in order of appearance with the marker gone and
surrounding whitespace and asterisks stripped; in particular the spec
example holds. -/
theorem c3_parser_numbered_lines (ls : List NLine)
    (h : ∀ L ∈ ls, L.WF) :
    parseQuestionsCore (renderText ls) =
      ls.map (fun L => stripSpaceStar (pyStripL L.content)) ∧
    parse_questions_from_response "1. What is X?\n2. *Why Y?*" =
      ["What is X?", "Why Y?"] :=
  ⟨parse_renderText ls h, by decide⟩

/-- C3 witness: the claim theorem applied to the concrete two-line text
of the spec example. -/
theorem c3_parser_numbered_lines_witness :
    parseQuestionsCore (renderText
      [NLine.mk [] ['1'] [' '] ("What is X?".data),
       NLine.mk [] ['2'] [' '] ("*Why Y?*".data)]) =
      ["What is X?".data, "Why Y?".data] ∧
    parse_questions_from_response "1. What is X?\n2. *Why Y?*" =
      ["What is X?", "Why Y?"] := by
  have h := c3_parser_numbered_lines
    [NLine.mk [] ['1'] [' '] ("What is X?".data),
     NLine.mk [] ['2'] [' '] ("*Why Y?*".data)] (by decide)
  exact ⟨h.1.trans (by decide), h.2⟩

/-- C4: every formatter variant given lists of differing lengths returns
an empty result without raising: the empty list for the default and
gemma variants and the empty-conversations wrapper for the llama
variant. -/
theorem c4_mismatched_lengths_empty (qs as : List String)
    (h : qs.length ≠ as.length) :
    create_default_template qs as = [] ∧
    create_gemma_template qs as = [] ∧
    create_llama_template qs as = ⟨[]⟩ := by
  unfold create_default_template create_gemma_template create_llama_template
  rw [if_pos h, if_pos h, if_pos h]
  exact ⟨rfl, rfl, rfl⟩

/-- C4 witness: the claim theorem applied to one question and zero
answers. -/
theorem c4_mismatched_lengths_empty_witness :
    create_default_template ["q"] [] = [] ∧
    create_gemma_template ["q"] [] = [] ∧
    create_llama_template ["q"] [] = ⟨[]⟩ :=
  c4_mismatched_lengths_empty ["q"] [] (by decide)

theorem parse_core_nonempty {cs : List Char}
    (h : ∀ m ∈ findallNumbered cs, pyStripL m ≠ [] →
      stripSpaceStar (pyStripL m) ≠ []) :
    ∀ q ∈ parseQuestionsCore cs, q ≠ [] := by
  intro q hq
  by_cases hp : primaryQuestions cs = []
  · rw [parse_eq_fallback hp] at hq
    obtain ⟨line, hline, hfl⟩ := List.mem_filterMap.mp hq
    simp only [fallbackLine] at hfl
    split at hfl
    · exact Option.noConfusion hfl
    · split at hfl
      · split at hfl
        next hcl =>
          rw [Option.some.injEq] at hfl
          subst hfl
          exact hcl.1
        next => exact Option.noConfusion hfl
      · split at hfl
        next heq _ _ =>
          rw [Option.some.injEq] at hfl
          subst hfl
          rw [heq]
          simp
        next => exact Option.noConfusion hfl
  · rw [parse_eq_primary hp] at hq
    obtain ⟨m, hm, hf⟩ := List.mem_filterMap.mp hq
    simp only at hf
    split at hf
    · exact Option.noConfusion hf
    next hne =>
      rw [Option.some.injEq] at hf
      subst hf
      exact h m hm hne

/-- C5 counterexample: the claim that every string returned by the
parser is non-empty fails on the input consisting of one numbered item
whose content is a single asterisk: the match text asterisk is non-empty
after the whitespace strip, but stripping spaces and asterisks afterward
leaves the empty string, which is appended. -/
theorem c5_counterexample :
    parse_questions_from_response "1. *" = [""] := by
  decide

/-- C5 amended: every string in the parser result is non-empty provided
every regex match whose whitespace-stripped text is non-empty remains
non-empty after also stripping surrounding spaces and asterisks; a
numbered item whose content consists solely of spaces and asterisks is
the only way an empty string is produced. -/
theorem c5_parser_strings_nonempty (s : String)
    (h : ∀ m ∈ findallNumbered s.data, pyStripL m ≠ [] →
      stripSpaceStar (pyStripL m) ≠ []) :
    ∀ q ∈ parse_questions_from_response s, q ≠ "" := by
  intro q hq
  unfold parse_questions_from_response at hq
  obtain ⟨l, hl, rfl⟩ := List.mem_map.mp hq
  have hne := parse_core_nonempty h l hl
  intro hcontra
  apply hne
  have hdata := congrArg String.data hcontra
  simpa using hdata

/-- C5 witness: the amended theorem applied to a concrete one-question
response. -/
theorem c5_parser_strings_nonempty_witness :
    "Hello?" ∈ parse_questions_from_response "1. Hello?" ∧
    ("Hello?" : String) ≠ "" :=
  ⟨by decide,
   c5_parser_strings_nonempty "1. Hello?" (by decide) "Hello?" (by decide)⟩

/-- C6 counterexample: the claim that a successful model call whose
reply parses to zero questions yields the same failure outcome as a
model-reported error fails: the generator returns the empty list in the
first case and None in the second, two distinct values. -/
theorem c6_counterexample :
    generate_questions_ollama "doc" 5 (some "no parseable output") =
      some [] ∧
    generate_questions_ollama "doc" 5 none = none ∧
    some ([] : List String) ≠ (none : Option (List String)) :=
  ⟨by decide, by decide, by decide⟩

/-- C6 amended: when the model call succeeds but the parser extracts
zero questions, the generator returns the empty list, an outcome
distinct from the None returned for a model-reported error; the
orchestrator maps both outcomes to a failed run with exit status 1. -/
theorem c6_empty_parse_distinct_outcome
    (content raw d tmpl : String) (n : Nat) (sup : List String)
    (ach : Nat → Option String)
    (hc : content ≠ "")
    (hraw : parse_questions_from_response raw = [])
    (hds : pyStripL d.data ≠ []) :
    generate_questions_ollama content n (some raw) = some [] ∧
    generate_questions_ollama content n none = none ∧
    sysExit (main (RunEnv.mk (some d) true (some raw) ach tmpl sup n)) = 1 ∧
    sysExit (main (RunEnv.mk (some d) true none ach tmpl sup n)) = 1 := by
  have hd' : d ≠ "" := by
    intro hcontra
    subst hcontra
    exact hds rfl
  have hgen : ∀ c : String, c ≠ "" →
      generate_questions_ollama c n (some raw) = some [] := by
    intro c hcne
    unfold generate_questions_ollama
    rw [if_neg hcne]
    show (if parse_questions_from_response raw = [] then some []
      else some (parse_questions_from_response raw)) = some []
    rw [if_pos hraw]
  refine ⟨hgen content hc, ?_, ?_, ?_⟩
  · unfold generate_questions_ollama
    rw [if_neg hc]
  · show sysExit (if pyStripL d.data = [] then some 1
      else if ¬ (true : Bool) then none
      else match generate_questions_ollama d n (some raw) with
        | none => some 1
        | some generatedQuestions =>
          if generatedQuestions = [] then some 1
          else
            let answersQuestions :=
              answers_questions_ollama d generatedQuestions ach
            if answersQuestions = [] then some 1
            else
              let data := create_template tmpl generatedQuestions
                answersQuestions sup
              if templateTruthy data ∧ ¬ templateIsStr data then some 0
              else some 1) = 1
    rw [if_neg hds, if_neg (by simp), hgen d hd']
    rfl
  · show sysExit (if pyStripL d.data = [] then some 1
      else if ¬ (true : Bool) then none
      else match generate_questions_ollama d n none with
        | none => some 1
        | some generatedQuestions =>
          if generatedQuestions = [] then some 1
          else
            let answersQuestions :=
              answers_questions_ollama d generatedQuestions ach
            if answersQuestions = [] then some 1
            else
              let data := create_template tmpl generatedQuestions
                answersQuestions sup
              if templateTruthy data ∧ ¬ templateIsStr data then some 0
              else some 1) = 1
    rw [if_neg hds, if_neg (by simp)]
    have : generate_questions_ollama d n none = none := by
      unfold generate_questions_ollama
      rw [if_neg hd']
    rw [this]
    rfl

/-- C6 witness: the amended theorem applied to a concrete run. -/
theorem c6_empty_parse_distinct_outcome_witness :
    generate_questions_ollama "doc" 3 (some "nothing") = some [] ∧
    generate_questions_ollama "doc" 3 none = none ∧
    sysExit (main (RunEnv.mk (some "doc") true (some "nothing")
      (fun _ => none) "default" ["default", "gemma", "llama"] 3)) = 1 ∧
    sysExit (main (RunEnv.mk (some "doc") true none
      (fun _ => none) "default" ["default", "gemma", "llama"] 3)) = 1 :=
  c6_empty_parse_distinct_outcome "doc" "nothing" "doc" "default" 3
    ["default", "gemma", "llama"] (fun _ => none)
    (by decide) (by decide) (by decide)

/-- C7: when the primary numbered-list strategy finds no questions the
parser result is exactly the fallback line heuristic (accepting, in
order, stripped lines longer than 2 characters starting with a digit or
bullet whose marker-free remainder still contains a question mark, and
lines containing a question mark with more than 3 words); when the
primary strategy found anything the fallback never runs; and the spec
example holds. -/
theorem c7_fallback_heuristic (cs : List Char) :
    (primaryQuestions cs = [] →
      parseQuestionsCore cs = fallbackQuestions cs) ∧
    (primaryQuestions cs ≠ [] →
      parseQuestionsCore cs = primaryQuestions cs) ∧
    parse_questions_from_response "- What time is it?\n- ok" =
      ["What time is it?"] :=
  ⟨fun h => parse_eq_fallback h, fun h => parse_eq_primary h, by decide⟩

/-- C7 witness: the claim theorem applied to a concrete bullet-list
response on which the primary strategy finds nothing. -/
theorem c7_fallback_heuristic_witness :
    parseQuestionsCore ("- hi there you?".data) =
      fallbackQuestions ("- hi there you?".data) ∧
    parse_questions_from_response "- What time is it?\n- ok" =
      ["What time is it?"] :=
  ⟨(c7_fallback_heuristic ("- hi there you?".data)).1 (by decide),
   (c7_fallback_heuristic ("- hi there you?".data)).2.2⟩

/-- C8: an unsupported template kind makes create_template return the
distinguished error string value, not an exception, and the string
carries the comma-joined list of supported kinds. -/
theorem c8_unsupported_template (k : String) (qs as sup : List String)
    (h : pyLower k ∉ sup) :
    create_template k qs as sup =
      TemplateResult.errStr ("Error: Unsupported template " ++ sq ++ k ++
        sq ++ ". Choose from: " ++ String.intercalate ", " sup) := by
  unfold create_template
  rw [if_pos h]

/-- C8 witness: the claim theorem applied to a concrete unsupported
kind. -/
theorem c8_unsupported_template_witness :
    create_template "alpaca" ["q"] ["a"] ["default", "gemma", "llama"] =
      TemplateResult.errStr ("Error: Unsupported template " ++ sq ++
        "alpaca" ++ sq ++ ". Choose from: " ++
        String.intercalate ", " ["default", "gemma", "llama"]) :=
  c8_unsupported_template "alpaca" ["q"] ["a"]
    ["default", "gemma", "llama"] (by decide)

/-- C9: template dispatch is case-insensitive: for every kind string
whose lowering is supported, create_template returns the same result on
the original string as on its lowered form. -/
theorem c9_case_insensitive_dispatch (k : String) (qs as sup : List String)
    (hmem : pyLower k ∈ sup) (_hlen : qs.length = as.length) :
    create_template k qs as sup = create_template (pyLower k) qs as sup := by
  unfold create_template
  rw [pyLower_idem, if_neg (not_not_intro hmem), if_neg (not_not_intro hmem)]

/-- C9 witness: the claim theorem applied to the uppercase form of the
default kind. -/
theorem c9_case_insensitive_dispatch_witness :
    create_template "DEFAULT" ["q"] ["a"] ["default", "gemma", "llama"] =
      create_template "default" ["q"] ["a"] ["default", "gemma", "llama"] :=
  (c9_case_insensitive_dispatch "DEFAULT" ["q"] ["a"]
    ["default", "gemma", "llama"] (by decide) (by decide)).trans (by decide)

/-- C10: on non-empty question and context, a successful model reply is
returned stripped of leading and trailing whitespace and otherwise
unchanged; in particular a reply that is the abstention sentinel
surrounded only by whitespace is returned as the exact sentinel
string. -/
theorem c10_answer_stripped (q ctx reply : String) (w1 w2 : List Char)
    (hq : q ≠ "") (hctx : ctx ≠ "")
    (h1 : ∀ c ∈ w1, isPySpace c = true) (h2 : ∀ c ∈ w2, isPySpace c = true) :
    answer_question_ollama q ctx (some reply) = some (pyStrip reply) ∧
    answer_question_ollama q ctx
      (some (String.mk (w1 ++ notFoundMsg.data ++ w2))) = some notFoundMsg := by
  constructor
  · unfold answer_question_ollama
    rw [if_neg hctx, if_neg hq]
  · unfold answer_question_ollama
    rw [if_neg hctx, if_neg hq]
    have hsand : pyStripL (w1 ++ notFoundMsg.data ++ w2) = notFoundMsg.data := by
      unfold pyStripL
      exact stripBy_sandwich h1 h2 (by decide) (by decide) (by decide)
    show some (String.mk (pyStripL (w1 ++ notFoundMsg.data ++ w2))) =
      some notFoundMsg
    rw [hsand]

/-- C10 witness: the claim theorem applied to a concrete reply and a
whitespace-surrounded sentinel reply. -/
theorem c10_answer_stripped_witness :
    answer_question_ollama "Q?" "ctx" (some "  an answer  ") =
      some "an answer" ∧
    answer_question_ollama "Q?" "ctx"
      (some (String.mk ([' ', '\n'] ++ notFoundMsg.data ++ ['\t']))) =
      some notFoundMsg := by
  have h := c10_answer_stripped "Q?" "ctx" "  an answer  " [' ', '\n'] ['\t']
    (by decide) (by decide) (by decide) (by decide)
  exact ⟨h.1.trans (by decide), h.2⟩
